import Mathlib

/-!
Verification of the light-curve cleaning pipeline
(`lcml/pipeline/stage/preprocess.py` and
`lcml/pipeline/database/serialization.py`).

Python `float` objects are modelled by `PyFloat`: a NaN carries an object
identifier because CPython's container membership test (`x in s`) first
compares object identity and only then `==`, and `nan == nan` is `False`,
so NaN membership is decided purely by identity.  Finite doubles are
modelled by exact rationals; ±Inf are explicit constructors.
-/

/-- Model of a Python float object. NaN carries the object id so that the
identity-then-equality semantics of `in` can be expressed; finite doubles
are carried exactly as rationals. -/
inductive PyFloat
  | nan (objId : ℕ)
  | finite (q : ℚ)
  | posInf
  | negInf
deriving DecidableEq

/-- Python `==` on floats (IEEE-754 equality): NaN compares unequal to
everything, including itself; ±Inf compare equal to themselves. -/
def pyEq : PyFloat → PyFloat → Bool
  | .finite a, .finite b => a = b
  | .posInf, .posInf => true
  | .negInf, .negInf => true
  | _, _ => false

/-- Python `is` (object identity), modelled structurally: two NaN objects
are identical iff they have the same object id. -/
def pyIs (a b : PyFloat) : Bool := a = b

/-- CPython membership `x in s` for a set/list of floats: identity first,
then `==`, for each element. -/
def pyMem (x : PyFloat) (s : List PyFloat) : Bool :=
  s.any (fun e => pyIs x e || pyEq x e)

/-- Object id convention: NaN objects created at runtime (by
deserialization or arithmetic) are fresh, distinct from the two NaN
constants interned in `NON_FINITE_VALUES` (ids 0 and 1). -/
def freshNanId : ℕ := 2

/-- `NON_FINITE_VALUES = set of np.nan, float nan, float inf, float -inf`
from `stage/preprocess.py`.  The set holds two distinct NaN objects
(`np.nan` modelled with id 0 and `float("nan")` with id 1) because they
are unequal under `==`; the two infinities collapse as usual. -/
def NON_FINITE_VALUES : List PyFloat :=
  [.nan 0, .nan 1, .posInf, .negInf]

/-- `SUFFICIENT_LC_DATA = 80` from `stage/preprocess.py`. -/
def SUFFICIENT_LC_DATA : ℕ := 80

/-- `INSUFFICIENT_DATA_REASON` from `stage/preprocess.py`. -/
def INSUFFICIENT_DATA_REASON : String := "insufficient at start"

/-- `BOGUS_DATA_REASON` from `stage/preprocess.py`. -/
def BOGUS_DATA_REASON : String := "insufficient due to bogus data"

/-- `OUTLIERS_REASON` from `stage/preprocess.py`. -/
def OUTLIERS_REASON : String := "insufficient due to statistical outliers"

/-- `DEFAULT_STD_LIMIT = 5` from `stage/preprocess.py`. -/
def DEFAULT_STD_LIMIT : ℚ := 5

/-- `DEFAULT_ERROR_LIMIT = 3` from `stage/preprocess.py`. -/
def DEFAULT_ERROR_LIMIT : ℚ := 3

/-- Python exceptions that the modelled code can raise. -/
inductive PyError
  | valueError (msg : String)
  | keyError (key : String)
  | zeroDivisionError
deriving DecidableEq

/-- Message of the `ValueError` raised in Python 2 when unpacking an empty
sequence into three names. -/
def unpackErrMsg : String := "need more than 0 values to unpack"

/-! ## Serialization (`lcml/pipeline/database/serialization.py`)

`serArray` is `cPickle.dumps`; `deserArray` is
`np.array(cPickle.loads(str(b)), dtype=np.float64)`.  cPickle (protocol 0)
writes each float via `repr`, which in Python 2.7 is the shortest decimal
that round-trips the IEEE-754 double exactly, and writes the non-finite
sentinels as the tokens `nan` / `inf` / `-inf`; loading applies `float`
to the token, which is exact for every finite double and for ±Inf and
produces a fresh NaN object for `nan`.  The blob is therefore modelled as
the list of these per-element payloads (`PyLit`), and deserialized NaNs
get the fresh object id `freshNanId`. -/

/-- Payload written to the pickle stream for one float: the exact decimal
for a finite double, or a non-finite token (NaN identity is not stored). -/
inductive PyLit
  | fin (q : ℚ)
  | inf
  | ninf
  | nanLit
deriving DecidableEq

/-- The blob produced by pickling a float sequence. -/
abbrev Blob := List PyLit

/-- The pickle payload of one float (`repr` in protocol 0): exact for
finite doubles and ±Inf; NaN loses its object identity. -/
def reprFloat : PyFloat → PyLit
  | .nan _ => .nanLit
  | .finite q => .fin q
  | .posInf => .inf
  | .negInf => .ninf

/-- Unpickling one float payload: exact for finite and ±Inf; `nan` yields
a fresh NaN object (id `freshNanId`). -/
def parseFloat : PyLit → PyFloat
  | .nanLit => .nan freshNanId
  | .fin q => .finite q
  | .inf => .posInf
  | .ninf => .negInf

/-- `serArray` from `serialization.py` (`cPickle.dumps`). -/
def serArray (a : List PyFloat) : Blob := a.map reprFloat

/-- `deserArray` from `serialization.py` (`cPickle.loads` then the
`np.float64` cast, which is the identity on doubles). -/
def deserArray (b : Blob) : List PyFloat := b.map parseFloat

/-- `serLc` from `serialization.py`. -/
def serLc (times mags errors : List PyFloat) : Blob × Blob × Blob :=
  (serArray times, serArray mags, serArray errors)

/-- `deserLc` from `serialization.py`. -/
def deserLc (times mags errors : Blob) :
    List PyFloat × List PyFloat × List PyFloat :=
  (deserArray times, deserArray mags, deserArray errors)

/-! ## Per-series filtering and preprocessing (`stage/preprocess.py`) -/

/-- The retained samples of the list comprehension inside `lcFilterBogus`:
index `i` is kept iff neither `values[i]` nor `errors[i]` is a member of
`removes`.  Out-of-range indexing (only possible for ragged inputs, which
the data model excludes) is modelled by a default. -/
def lcFilterBogusKeep (mjds values errors removes : List PyFloat) :
    List (PyFloat × PyFloat × PyFloat) :=
  (values.enum.filter (fun p =>
      !(pyMem p.2 removes) && !(pyMem (errors.getD p.1 (.finite 0)) removes))).map
    (fun p => (mjds.getD p.1 (.finite 0), p.2, errors.getD p.1 (.finite 0)))

/-- `lcFilterBogus` from `stage/preprocess.py`: `zip(star-args list)` of the
retained triples.  When at least one sample is retained this is the list
of exactly three component tuples; when nothing is retained `zip()`
returns the empty list. -/
def lcFilterBogus (mjds values errors removes : List PyFloat) :
    List (List PyFloat) :=
  let kept := lcFilterBogusKeep mjds values errors removes
  if kept = [] then []
  else [kept.map (fun p => p.1), kept.map (fun p => p.2.1),
        kept.map (fun p => p.2.2)]

/-- The `removedCounts` dict of `preprocessLc`. -/
structure RemovedCounts where
  bogusRemoved : ℕ
  outlierRemoved : ℕ
deriving DecidableEq

/-- A cleaned light curve: the `(tm, mag, err)` triple. -/
abbrev LcTriple := List PyFloat × List PyFloat × List PyFloat

/-- The external collaborator `feets.preprocess.remove_noise`
(black box per the spec: deterministic and pure), taking
`error_limit` and `std_limit` and the three series components. -/
abbrev RemoveNoiseFn :=
  ℚ → ℚ → List PyFloat → List PyFloat → List PyFloat → LcTriple

/-- `preprocessLc` from `stage/preprocess.py`.  The tuple unpacking
`tm, mag, err = lcFilterBogus(...)` raises `ValueError` when the filter
rejects every sample (then `zip` returned `[]`, not three components). -/
def preprocessLc (removeNoise : RemoveNoiseFn)
    (timeData magData errorData removes : List PyFloat)
    (stdLimit errorLimit : ℚ) :
    Except PyError (Option LcTriple × Option String × RemovedCounts) :=
  if timeData.length < SUFFICIENT_LC_DATA then
    .ok (none, some INSUFFICIENT_DATA_REASON, ⟨0, 0⟩)
  else
    match lcFilterBogus timeData magData errorData removes with
    | [tm, mag, err] =>
      let bogusRemoved := timeData.length - tm.length
      if tm.length < SUFFICIENT_LC_DATA then
        .ok (none, some BOGUS_DATA_REASON, ⟨bogusRemoved, 0⟩)
      else
        match removeNoise errorLimit stdLimit tm mag err with
        | (tm2, mag2, err2) =>
          let outlierRemoved := tm.length - tm2.length
          if tm2.length < SUFFICIENT_LC_DATA then
            .ok (none, some OUTLIERS_REASON, ⟨bogusRemoved, outlierRemoved⟩)
          else
            .ok (some (tm2, mag2, err2), none, ⟨bogusRemoved, outlierRemoved⟩)
    | _ => .error (.valueError unpackErrMsg)

-- A removeNoise instance used for concrete runs: keeps every sample
-- (the remove_noise contract allows returning the input subsequence).
/-- Identity instance of the external noise-removal routine, used to
evaluate concrete scenarios. -/
def idRemoveNoise : RemoveNoiseFn := fun _ _ t m e => (t, m, e)

/-! ## Normalization (`_transformArray` in `stage/preprocess.py`)

The source reuses one `StandardScaler(copy=False)` across every call but
always calls `scaler.fit(X).transform(X)`.  sklearn's documented `fit`
semantics: it resets the estimator and computes the per-feature mean and
scale from the passed data alone, so the fitted statistics are a function
of the array being transformed.  That statistics computation (numpy mean
and the square root of the variance, with sklearn's zero-variance
handling) is the external collaborator here and is abstracted as the
`fit` parameter; the transform itself, `(X - mean) / scale`, is modelled
over `PyFloat` arithmetic on the two operations it uses. -/

/-- Fitted per-feature statistics of a `StandardScaler`. -/
structure ScalerStats where
  mean : PyFloat
  scale : PyFloat
deriving DecidableEq

/-- External statistics computation performed by `StandardScaler.fit`
(mean and scale of the given column). -/
abbrev FitFn := List PyFloat → ScalerStats

/-- IEEE-754 subtraction on the float model: NaN propagates (as a fresh
object), equal infinities give NaN, mixed infinities dominate, finite
values subtract exactly. -/
def pfSub : PyFloat → PyFloat → PyFloat
  | .nan _, _ => .nan freshNanId
  | _, .nan _ => .nan freshNanId
  | .posInf, .posInf => .nan freshNanId
  | .negInf, .negInf => .nan freshNanId
  | .posInf, _ => .posInf
  | .negInf, _ => .negInf
  | _, .posInf => .negInf
  | _, .negInf => .posInf
  | .finite a, .finite b => .finite (a - b)

/-- IEEE-754 division on the float model (numpy semantics): NaN
propagates, inf/inf and 0/0 give NaN, finite/0 gives a signed infinity,
finite/inf gives 0, and finite values divide exactly. -/
def pfDiv : PyFloat → PyFloat → PyFloat
  | .nan _, _ => .nan freshNanId
  | _, .nan _ => .nan freshNanId
  | .posInf, .posInf => .nan freshNanId
  | .posInf, .negInf => .nan freshNanId
  | .negInf, .posInf => .nan freshNanId
  | .negInf, .negInf => .nan freshNanId
  | .posInf, .finite b => if b < 0 then .negInf else .posInf
  | .negInf, .finite b => if b < 0 then .posInf else .negInf
  | .finite _, .posInf => .finite 0
  | .finite _, .negInf => .finite 0
  | .finite a, .finite b =>
    if b = 0 then
      if a = 0 then .nan freshNanId
      else if a < 0 then .negInf else .posInf
    else .finite (a / b)

/-- `StandardScaler.transform` with fitted statistics `st`:
`(X - mean) / scale` applied elementwise. -/
def scalerApply (st : ScalerStats) (a : List PyFloat) : List PyFloat :=
  a.map (fun x => pfDiv (pfSub x st.mean) st.scale)

/-- `_transformArray` from `stage/preprocess.py`:
`scaler.fit(reshaped).transform(reshaped)` flattened back.  Returns the
transformed array and the scaler's state after the call (the reshaping
round-trip is the identity on the value sequence). -/
def transformArray (fit : FitFn) (scaler : Option ScalerStats)
    (a : List PyFloat) : List PyFloat × Option ScalerStats :=
  let st := fit a
  (scalerApply st a, some st)

/-! ## The cleaning pipeline (`cleanLightCurves` in `stage/preprocess.py`)

The sqlite collaborator (`singleColPagingItr`, `conn.commit`,
`INSERT_REPLACE_INTO_LCS`) is modelled by a list of raw rows, a list of
staged insert arguments, and commit counters; logging calls are dropped.
The `params` dict is modelled with one optional field per key the code
reads. -/

/-- A raw row `(id, label, timesBlob, magsBlob, errorsBlob)` yielded by
the paging iterator. -/
structure Row where
  id : ℕ
  label : String
  timesBlob : Blob
  magsBlob : Blob
  errorsBlob : Blob
deriving DecidableEq

/-- The `params` dict of `cleanLightCurves`: each recognized key is
present (`some`) or absent (`none`). -/
structure CleanParams where
  filter : Option (List PyFloat)
  stdLimit : Option ℚ
  errorLimit : Option ℚ
  transform : Option Bool

/-- The `limit` argument: a finite bound or `float("inf")`. -/
inductive PageLimit
  | fin (n : ℕ)
  | inf
deriving DecidableEq

/-- The Python break test `i >= limit`. -/
def limitHit (i : ℕ) : PageLimit → Bool
  | .inf => false
  | .fin n => n ≤ i

/-- Arguments staged for the insert-or-replace statement:
`(r[0], r[1]) + serLc(lc)`. -/
abbrev InsertArgs := ℕ × String × Blob × Blob × Blob

/-- Mutable state of one `cleanLightCurves` run: the discard counters,
the insert count, the staged rows, the shared scaler object, the number
of periodic commits performed, and the number of loop iterations
executed (the value of `i + 1` for the last record processed). -/
structure CleanState where
  shortIssueCount : ℕ
  bogusIssueCount : ℕ
  outlierIssueCount : ℕ
  insertCount : ℕ
  insertedRows : List InsertArgs
  scaler : Option ScalerStats
  periodicCommits : ℕ
  examined : ℕ
deriving DecidableEq

/-- The state at `cleanLightCurves` entry: all counters zero, no staged
rows, a freshly constructed (unfitted) `StandardScaler`. -/
def initCleanState : CleanState := ⟨0, 0, 0, 0, [], none, 0, 0⟩

/-- The per-record configuration assembled at the top of
`cleanLightCurves` (plus the two external collaborators). -/
structure CleanCfg where
  removeNoise : RemoveNoiseFn
  fit : FitFn
  transformOpt : Option Bool
  removes : List PyFloat
  stdLimit : ℚ
  errorLimit : ℚ
  commitFrequency : ℕ

/-- Outcome of processing one record, before it is applied to the run
state: acceptance with the staged insert arguments, or one of the three
typed rejections; the scaler state after the optional transform rides
along. -/
inductive RowOutcome
  | accept (ins : InsertArgs) (sc : Option ScalerStats)
  | shortR (sc : Option ScalerStats)
  | bogusR (sc : Option ScalerStats)
  | outlierR (sc : Option ScalerStats)

/-- The optional normalization step of the loop body: when enabled,
`mags` then `errors` are rescaled through the shared scaler. -/
def applyTransform (fit : FitFn) (tr : Bool) (sc : Option ScalerStats)
    (mags errors : List PyFloat) :
    List PyFloat × List PyFloat × Option ScalerStats :=
  if tr then
    let p1 := transformArray fit sc mags
    let p2 := transformArray fit p1.2 errors
    (p1.1, p2.1, p2.2)
  else (mags, errors, sc)

/-- The loop body of `cleanLightCurves` up to the counter updates:
deserialize, read `params` at key `transform` (raising `KeyError` when
absent), optionally rescale, preprocess, and classify the outcome;
an unmapped rejection reason raises `ValueError`. -/
def rowOutcome (cfg : CleanCfg) (sc : Option ScalerStats) (r : Row) :
    Except PyError RowOutcome :=
  let tme := deserLc r.timesBlob r.magsBlob r.errorsBlob
  match cfg.transformOpt with
  | none => .error (.keyError "transform")
  | some tr =>
    let mes := applyTransform cfg.fit tr sc tme.2.1 tme.2.2
    match preprocessLc cfg.removeNoise tme.1 mes.1 mes.2.1 cfg.removes
        cfg.stdLimit cfg.errorLimit with
    | .error e => .error e
    | .ok (lc, issue, _removedCounts) =>
      match lc with
      | some cleaned =>
        .ok (.accept (r.id, r.label, (serLc cleaned.1 cleaned.2.1 cleaned.2.2).1,
              (serLc cleaned.1 cleaned.2.1 cleaned.2.2).2.1,
              (serLc cleaned.1 cleaned.2.1 cleaned.2.2).2.2) mes.2.2)
      | none =>
        match issue with
        | some s =>
          if s = INSUFFICIENT_DATA_REASON then .ok (.shortR mes.2.2)
          else if s = BOGUS_DATA_REASON then .ok (.bogusR mes.2.2)
          else if s = OUTLIERS_REASON then .ok (.outlierR mes.2.2)
          else .error (.valueError ("Bad reason: " ++ s))
        | none => .error (.valueError "Bad reason: None")

/-- The accept branch: stage the insert, bump `insertCount`, and commit
when `insertCount` has become a multiple of `commitFrequency`. -/
def acceptStep (cf : ℕ) (ins : InsertArgs) (sc : Option ScalerStats)
    (st : CleanState) : CleanState :=
  let st1 := { st with scaler := sc,
                       insertedRows := st.insertedRows ++ [ins],
                       insertCount := st.insertCount + 1 }
  if (st.insertCount + 1) % cf = 0 then
    { st1 with periodicCommits := st1.periodicCommits + 1 }
  else st1

/-- Applying a row outcome to the run state.  A zero commit frequency
would make Python's modulo raise `ZeroDivisionError` on the first
accepted record. -/
def applyOutcome (cf : ℕ) (st : CleanState) :
    RowOutcome → Except PyError CleanState
  | .accept ins sc =>
    if cf = 0 then .error .zeroDivisionError
    else .ok (acceptStep cf ins sc st)
  | .shortR sc =>
    .ok { st with scaler := sc, shortIssueCount := st.shortIssueCount + 1 }
  | .bogusR sc =>
    .ok { st with scaler := sc, bogusIssueCount := st.bogusIssueCount + 1 }
  | .outlierR sc =>
    .ok { st with scaler := sc,
                  outlierIssueCount := st.outlierIssueCount + 1 }

/-- One full iteration of the paging loop for record `r`. -/
def processRow (cfg : CleanCfg) (st : CleanState) (r : Row) :
    Except PyError CleanState :=
  match rowOutcome cfg st.scaler r with
  | .error e => .error e
  | .ok o => applyOutcome cfg.commitFrequency st o

/-- The paging loop `for i, r in enumerate(...)`: process the record,
then break if `i >= limit`.  `examined` counts completed iterations. -/
def cleanLoop (cfg : CleanCfg) (limit : PageLimit) (i : ℕ)
    (st : CleanState) : List Row → Except PyError CleanState
  | [] => .ok st
  | r :: rs =>
    match processRow cfg st r with
    | .error e => .error e
    | .ok st1 =>
      let st2 := { st1 with examined := st1.examined + 1 }
      if limitHit i limit then .ok st2
      else cleanLoop cfg limit (i + 1) st2 rs

/-- The effective reject-set: the configured `filter` values (defaulting
to the empty set) unioned with `NON_FINITE_VALUES`.  Set union is
modelled by list append, which has the same membership semantics. -/
def effectiveRemoves (params : CleanParams) : List PyFloat :=
  (match params.filter with
   | some f => f
   | none => []) ++ NON_FINITE_VALUES

/-- The configuration `cleanLightCurves` assembles before the loop. -/
def cfgOf (removeNoise : RemoveNoiseFn) (fit : FitFn)
    (params : CleanParams) (commitFrequency : ℕ) : CleanCfg :=
  { removeNoise := removeNoise
    fit := fit
    transformOpt := params.transform
    removes := effectiveRemoves params
    stdLimit := params.stdLimit.getD DEFAULT_STD_LIMIT
    errorLimit := params.errorLimit.getD DEFAULT_ERROR_LIMIT
    commitFrequency := commitFrequency }

/-- `fmtPct` (from `lcml.utils.format_util`, not under `src`).
Modelled from the spec: the summary reports each rate as
(count / total examined); the formatter is modelled as the exact
ratio it renders. -/
def fmtPct (num den : ℕ) : ℚ := (num : ℚ) / (den : ℚ)

/-- The summary logged at the end of a run: the dataset size used as the
rate denominator and the four rates. -/
structure Summary where
  datasetSize : ℕ
  passRate : ℚ
  shortRate : ℚ
  bogusRate : ℚ
  outlierRate : ℚ
deriving DecidableEq

/-- Result of a completed `cleanLightCurves` run: the final loop state,
the single post-loop flush commit, and the logged summary. -/
structure RunResult where
  finalState : CleanState
  flushCommits : ℕ
  summary : Summary
deriving DecidableEq

/-- The `totalLcs` denominator: the raw-table row count, replaced by
`max(totalLcs, limit)` when the limit is finite. -/
def totalLcsOf (rawCount : ℕ) : PageLimit → ℕ
  | .inf => rawCount
  | .fin n => max rawCount n

/-- `cleanLightCurves` from `stage/preprocess.py` over the modelled
store: assemble the configuration, count the raw table, run the paging
loop, perform the final flush commit, and emit the summary. -/
def cleanLightCurves (removeNoise : RemoveNoiseFn) (fit : FitFn)
    (params : CleanParams) (commitFrequency : ℕ) (limit : PageLimit)
    (rawRows : List Row) : Except PyError RunResult :=
  let cfg := cfgOf removeNoise fit params commitFrequency
  let totalLcs := totalLcsOf rawRows.length limit
  match cleanLoop cfg limit 0 initCleanState rawRows with
  | .error e => .error e
  | .ok st =>
    .ok { finalState := st
          flushCommits := 1
          summary :=
            { datasetSize := totalLcs
              passRate := fmtPct st.insertCount totalLcs
              shortRate := fmtPct st.shortIssueCount totalLcs
              bogusRate := fmtPct st.bogusIssueCount totalLcs
              outlierRate := fmtPct st.outlierIssueCount totalLcs } }

/-! Extractors used to state closed facts about run results. -/

/-- The `(insertCount, periodicCommits, flushCommits)` triple of a
completed run. -/
def runStats : Except PyError RunResult → Option (ℕ × ℕ × ℕ)
  | .error _ => none
  | .ok res =>
    some (res.finalState.insertCount, res.finalState.periodicCommits,
          res.flushCommits)

/-- The number of records examined by a completed run. -/
def runExamined : Except PyError RunResult → Option ℕ
  | .error _ => none
  | .ok res => some res.finalState.examined

/-- The summary of a completed run. -/
def runSummary : Except PyError RunResult → Option Summary
  | .error _ => none
  | .ok res => some res.summary

/-! ## Concrete fixtures for scenario evaluation -/

/-- A trivial instance of the external scaler-statistics computation,
used only in runs with normalization disabled. -/
def wFit : FitFn := fun _ => ⟨.finite 0, .finite 1⟩

/-- Params with normalization present and disabled and every other key
absent. -/
def wParams : CleanParams := ⟨none, none, none, some false⟩

/-- An 80-point series of finite values. -/
def goodSeries : List PyFloat := List.replicate 80 (PyFloat.finite 1)

/-- The pickled blob of `goodSeries`. -/
def goodBlob : Blob := List.replicate 80 (PyLit.fin 1)

/-- A raw row whose three components deserialize to `goodSeries`; it
passes every checkpoint and is accepted unchanged. -/
def goodRow : Row := ⟨0, "star", goodBlob, goodBlob, goodBlob⟩

/-- A raw row with empty series: examined and rejected at the initial
length check. -/
def emptyRow : Row := ⟨1, "star", [], [], []⟩

/-- The params of a run with five configured bogus values 99 in a
85-point series: the filter drops them, the series stays accepted. -/
def bogusParams : CleanParams := ⟨some [.finite 99], none, none, some false⟩

/-- 85 pickled times/errors, all finite 1. -/
def blob85 : Blob := List.replicate 85 (PyLit.fin 1)

/-- 85 pickled magnitudes, the first five being the configured bogus
value 99. -/
def mixedBlob : Blob :=
  List.replicate 5 (PyLit.fin 99) ++ List.replicate 80 (PyLit.fin 1)

/-- A row that is accepted after the filter removes five bogus points. -/
def bogusRow : Row := ⟨3, "star", blob85, mixedBlob, blob85⟩

/-- Series components for the C1 scenario: length 100 with NaN values
(fresh objects, as produced by deserialization) at indices 10 and 20. -/
def c1Times : List PyFloat := List.replicate 100 (PyFloat.finite 0)

/-- Magnitudes of the C1 scenario: NaN at indices 10 and 20. -/
def c1Vals : List PyFloat :=
  (List.range 100).map (fun i =>
    if i = 10 ∨ i = 20 then PyFloat.nan freshNanId else PyFloat.finite 1)

/-- Magnitudes of the C1 scenario built from the very objects interned in
`NON_FINITE_VALUES` (`np.nan` at 10, `float nan` at 20): the only NaN
objects the membership test can catch. -/
def c1ValsInterned : List PyFloat :=
  (List.range 100).map (fun i =>
    if i = 10 then PyFloat.nan 0
    else if i = 20 then PyFloat.nan 1 else PyFloat.finite 1)

/-- Errors of the C1 scenario: all finite. -/
def c1Errs : List PyFloat := List.replicate 100 (PyFloat.finite 1)

/-- Series components for the C2 scenario: 80 samples whose value 7 is a
member of the reject-set, so the filter rejects every sample. -/
def c2Times : List PyFloat := List.replicate 80 (PyFloat.finite 0)

/-- Magnitudes of the C2 scenario: all equal to the rejected value 7. -/
def c2Vals : List PyFloat := List.replicate 80 (PyFloat.finite 7)

/-- Errors of the C2 scenario: all finite and retained. -/
def c2Errs : List PyFloat := List.replicate 80 (PyFloat.finite 1)

/-! ## Claims settled without loop invariants -/

set_option maxRecDepth 8192
set_option maxHeartbeats 1000000

/-- Claim C1 (code bug): NaN samples are NOT dropped by `lcFilterBogus`.
`v in removes` tests object identity and then IEEE equality; a NaN
produced by deserialization is a fresh object and `nan == nan` is false,
so at the scenario input (length 100, NaN values at indices 10 and 20)
the filter retains all 100 samples instead of the specified 98.  Only the
exact NaN objects interned in `NON_FINITE_VALUES` would be dropped, which
never happens for data read from the store. -/
theorem C1_nan_not_filtered :
    (lcFilterBogusKeep c1Times c1Vals c1Errs NON_FINITE_VALUES).length = 100
    ∧ ¬ (lcFilterBogusKeep c1Times c1Vals c1Errs NON_FINITE_VALUES).length = 98
    ∧ pyMem (PyFloat.nan freshNanId) NON_FINITE_VALUES = false
    ∧ (lcFilterBogusKeep c1Times c1ValsInterned c1Errs
        NON_FINITE_VALUES).length = 98 := by
  refine ⟨by decide, by decide, by decide, by decide⟩

/-- Claim C2 (code bug): when every sample is rejected, `lcFilterBogus`
itself does return the empty list (`zip()` of an empty comprehension),
but the caller `preprocessLc` unpacks that result into three names and
raises `ValueError` instead of reaching the post-filter length check. -/
theorem C2_all_rejected_raises :
    preprocessLc idRemoveNoise c2Times c2Vals c2Errs [.finite 7] 5 3 =
      .error (.valueError unpackErrMsg)
    ∧ lcFilterBogus c2Times c2Vals c2Errs [.finite 7] = [] :=
  ⟨by rfl, by rfl⟩

/-- Claim C7: a series shorter than `SUFFICIENT_LC_DATA` is rejected at
the first checkpoint with `INSUFFICIENT_DATA_REASON` and zero removed
counts, for every noise-removal routine and reject-set — the bogus filter
and the outlier reducer are never consulted. -/
theorem C7_short_circuit (removeNoise : RemoveNoiseFn)
    (t m e removes : List PyFloat) (stdLimit errorLimit : ℚ)
    (h : t.length < SUFFICIENT_LC_DATA) :
    preprocessLc removeNoise t m e removes stdLimit errorLimit =
      .ok (none, some INSUFFICIENT_DATA_REASON, ⟨0, 0⟩) := by
  unfold preprocessLc
  simp [h]

/-- Witness for C7 at a concrete 79-point series. -/
theorem C7_short_circuit_witness :
    (List.replicate 79 (PyFloat.finite 0)).length < SUFFICIENT_LC_DATA ∧
    preprocessLc idRemoveNoise (List.replicate 79 (PyFloat.finite 0))
      (List.replicate 79 (PyFloat.finite 1))
      (List.replicate 79 (PyFloat.finite 1)) NON_FINITE_VALUES 5 3 =
      .ok (none, some INSUFFICIENT_DATA_REASON, ⟨0, 0⟩) :=
  ⟨by decide, C7_short_circuit idRemoveNoise _ _ _ _ 5 3 (by decide)⟩

/-- Is this float object a NaN. -/
def pyIsNan : PyFloat → Bool
  | .nan _ => true
  | _ => false

/-- Pointwise round-trip check: same length, every non-NaN element
reproduced exactly (finite values and ±Inf), every NaN element still a
NaN (possibly a different object). -/
def losslessUpToNan : List PyFloat → List PyFloat → Bool
  | [], [] => true
  | x :: xs, y :: ys =>
    (if pyIsNan x then pyIsNan y else y == x) && losslessUpToNan xs ys
  | _, _ => false

/-- One-array round trip through the pickle model. -/
theorem deser_ser_lossless (a : List PyFloat) :
    losslessUpToNan a (deserArray (serArray a)) = true := by
  induction a with
  | nil => rfl
  | cons x xs ih =>
    have ih2 : losslessUpToNan xs (List.map (parseFloat ∘ reprFloat) xs) =
        true := by
      simpa [serArray, deserArray, List.map_map] using ih
    cases x <;>
      simp [losslessUpToNan, serArray, deserArray, pyIsNan, parseFloat,
            reprFloat, ih2]

/-- Claim C8: `deserLc` after `serLc` reproduces every component
sequence: exact for every finite value and for ±Inf, with every NaN
element remaining NaN; illustrated on the spec's `[1.0, nan, -inf]`
example, where the NaN comes back as a fresh NaN object. -/
theorem C8_roundtrip :
    (∀ t m e : List PyFloat,
      losslessUpToNan t
        (deserLc (serLc t m e).1 (serLc t m e).2.1 (serLc t m e).2.2).1 = true ∧
      losslessUpToNan m
        (deserLc (serLc t m e).1 (serLc t m e).2.1 (serLc t m e).2.2).2.1 = true ∧
      losslessUpToNan e
        (deserLc (serLc t m e).1 (serLc t m e).2.1 (serLc t m e).2.2).2.2 = true)
    ∧ deserArray (serArray [.finite 1, .nan 7, .negInf]) =
        [.finite 1, .nan freshNanId, .negInf] :=
  ⟨fun t m e =>
    ⟨deser_ser_lossless t, deser_ser_lossless m, deser_ser_lossless e⟩,
   by rfl⟩

/-- Claim C9: the rescaled output of a series does not depend on the
incoming state of the shared `StandardScaler`: `_transformArray` refits
on each array before transforming, so processing series B after series A
gives the same output as processing B alone with the freshly constructed
scaler of pipeline start. -/
theorem C9_scaler_stateless :
    (∀ (fit : FitFn) (s1 s2 : Option ScalerStats) (a : List PyFloat),
      (transformArray fit s1 a).1 = (transformArray fit s2 a).1)
    ∧ (∀ (fit : FitFn) (s0 : Option ScalerStats) (a b : List PyFloat),
      (transformArray fit (transformArray fit s0 a).2 b).1 =
        (transformArray fit initCleanState.scaler b).1) :=
  ⟨fun _ _ _ _ => rfl, fun _ _ _ _ => rfl⟩

/-- Claim C10: omitting `transform` makes the run raise `KeyError` while
processing the first record, for every nonempty raw table; omitting
`filter`, `stdLimit`, or `errorLimit` behaves exactly as the defaults
(empty set, 5, 3), so `transform` is the only option without one. -/
theorem C10_transform_required :
    (∀ (rn : RemoveNoiseFn) (fit : FitFn) (pf : Option (List PyFloat))
        (psl pel : Option ℚ) (cf : ℕ) (limit : PageLimit) (r : Row)
        (rows : List Row),
      cleanLightCurves rn fit ⟨pf, psl, pel, none⟩ cf limit (r :: rows) =
        .error (.keyError "transform"))
    ∧ (∀ (rn : RemoveNoiseFn) (fit : FitFn) (tr : Bool) (cf : ℕ)
        (limit : PageLimit) (rows : List Row),
      cleanLightCurves rn fit ⟨none, none, none, some tr⟩ cf limit rows =
        cleanLightCurves rn fit ⟨some [], some 5, some 3, some tr⟩ cf limit
          rows)
    ∧ effectiveRemoves ⟨none, none, none, some true⟩ = NON_FINITE_VALUES
    ∧ (cfgOf idRemoveNoise wFit ⟨none, none, none, some true⟩ 50).stdLimit =
        DEFAULT_STD_LIMIT
    ∧ (cfgOf idRemoveNoise wFit ⟨none, none, none, some true⟩ 50).errorLimit =
        DEFAULT_ERROR_LIMIT :=
  ⟨fun _ _ _ _ _ _ _ _ _ => rfl, fun _ _ _ _ _ _ => rfl, rfl, rfl, rfl⟩

/-! ## Loop invariants of `cleanLightCurves` -/

/-- The accept branch preserves `examined`. -/
theorem acceptStep_examined (cf : ℕ) (ins : InsertArgs)
    (sc : Option ScalerStats) (st : CleanState) :
    (acceptStep cf ins sc st).examined = st.examined := by
  unfold acceptStep
  split <;> rfl

/-- The accept branch increments `insertCount`. -/
theorem acceptStep_insertCount (cf : ℕ) (ins : InsertArgs)
    (sc : Option ScalerStats) (st : CleanState) :
    (acceptStep cf ins sc st).insertCount = st.insertCount + 1 := by
  unfold acceptStep
  split <;> rfl

/-- The accept branch commits exactly when the new `insertCount` is a
multiple of the commit frequency. -/
theorem acceptStep_periodicCommits (cf : ℕ) (ins : InsertArgs)
    (sc : Option ScalerStats) (st : CleanState) :
    (acceptStep cf ins sc st).periodicCommits =
      st.periodicCommits +
        if (st.insertCount + 1) % cf = 0 then 1 else 0 := by
  unfold acceptStep
  split <;> simp_all

/-- Commit-counting invariant: during the loop, the number of periodic
commits equals `insertCount / commitFrequency`. -/
def CommitInv (cf : ℕ) (st : CleanState) : Prop :=
  st.periodicCommits = st.insertCount / cf

/-- Applying any row outcome preserves the commit-counting invariant. -/
theorem applyOutcome_commitInv (cf : ℕ) (st st' : CleanState)
    (o : RowOutcome) (h : applyOutcome cf st o = .ok st')
    (hinv : CommitInv cf st) : CommitInv cf st' := by
  cases o with
  | accept ins sc =>
    simp only [applyOutcome] at h
    split at h
    · exact absurd h (by simp)
    · cases h
      unfold CommitInv at hinv ⊢
      rw [acceptStep_periodicCommits, acceptStep_insertCount, hinv,
          Nat.succ_div]
      congr 1
      simp [Nat.dvd_iff_mod_eq_zero]
  | shortR sc => simp only [applyOutcome] at h; cases h; exact hinv
  | bogusR sc => simp only [applyOutcome] at h; cases h; exact hinv
  | outlierR sc => simp only [applyOutcome] at h; cases h; exact hinv

/-- Processing one row preserves the commit-counting invariant. -/
theorem processRow_commitInv (cfg : CleanCfg) (st st' : CleanState)
    (r : Row) (h : processRow cfg st r = .ok st')
    (hinv : CommitInv cfg.commitFrequency st) :
    CommitInv cfg.commitFrequency st' := by
  unfold processRow at h
  split at h
  · exact absurd h (by simp)
  · exact applyOutcome_commitInv cfg.commitFrequency st st' _ h hinv

/-- Processing one row leaves `examined` unchanged (the loop itself
bumps it). -/
theorem processRow_examined (cfg : CleanCfg) (st st' : CleanState)
    (r : Row) (h : processRow cfg st r = .ok st') :
    st'.examined = st.examined := by
  unfold processRow at h
  split at h
  · exact absurd h (by simp)
  · rename_i o heq
    cases o with
    | accept ins sc =>
      simp only [applyOutcome] at h
      split at h
      · exact absurd h (by simp)
      · cases h; exact acceptStep_examined _ _ _ _
    | shortR sc => simp only [applyOutcome] at h; cases h; rfl
    | bogusR sc => simp only [applyOutcome] at h; cases h; rfl
    | outlierR sc => simp only [applyOutcome] at h; cases h; rfl

/-- The loop maintains the commit-counting invariant to its final
state. -/
theorem cleanLoop_commitInv (cfg : CleanCfg) (limit : PageLimit) :
    ∀ (rows : List Row) (i : ℕ) (st st' : CleanState),
      cleanLoop cfg limit i st rows = .ok st' →
      CommitInv cfg.commitFrequency st →
      CommitInv cfg.commitFrequency st' := by
  intro rows
  induction rows with
  | nil =>
    intro i st st' h hinv
    cases h
    exact hinv
  | cons r rs ih =>
    intro i st st' h hinv
    unfold cleanLoop at h
    split at h
    · exact absurd h (by simp)
    · rename_i st1 heq
      have hinv1 : CommitInv cfg.commitFrequency st1 :=
        processRow_commitInv cfg st st1 r heq hinv
      have hinv2 : CommitInv cfg.commitFrequency
          { st1 with examined := st1.examined + 1 } := hinv1
      split at h
      · cases h; exact hinv2
      · exact ih (i + 1) _ st' h hinv2

/-- With a finite limit `L` and loop index starting at `i ≤ L`, the loop
completes at most `L + 1 - i` more iterations. -/
theorem cleanLoop_examined_le (cfg : CleanCfg) (L : ℕ) :
    ∀ (rows : List Row) (i : ℕ) (st st' : CleanState), i ≤ L →
      cleanLoop cfg (.fin L) i st rows = .ok st' →
      st'.examined ≤ st.examined + (L + 1 - i) := by
  intro rows
  induction rows with
  | nil =>
    intro i st st' _ h
    cases h
    exact Nat.le_add_right _ _
  | cons r rs ih =>
    intro i st st' hiL h
    unfold cleanLoop at h
    split at h
    · exact absurd h (by simp)
    · rename_i st1 heq
      have hex : st1.examined = st.examined := processRow_examined _ _ _ _ heq
      split at h
      · cases h
        simp only [limitHit] at *
        simp [hex]
        omega
      · rename_i hlim
        simp only [limitHit, decide_eq_true_eq] at hlim
        have hiL2 : i + 1 ≤ L := by omega
        have := ih (i + 1) _ st' hiL2 h
        simp [hex] at this
        omega

/-! ## Claim C4: the limit bounds the number of records examined -/

/-- Bounded-examination check on a run result (vacuous for aborted
runs). -/
def c4Check (k : ℕ) : Except PyError RunResult → Bool
  | .error _ => true
  | .ok res => decide (res.finalState.examined ≤ k) && res.flushCommits == 1

/-- Claim C4 (amended): with a finite limit `L`, a completed run
examines at most `L + 1` records — the loop body runs once more after
the index reaches `L`, because the break test `i >= limit` follows the
processing of record `i` — and then performs the single final flush
commit. -/
theorem C4_limit_bound (rn : RemoveNoiseFn) (fit : FitFn)
    (params : CleanParams) (cf L : ℕ) (rows : List Row) :
    c4Check (L + 1)
      (cleanLightCurves rn fit params cf (.fin L) rows) = true := by
  simp only [cleanLightCurves]
  split
  · rfl
  · rename_i st heq
    have hb := cleanLoop_examined_le (cfgOf rn fit params cf) L rows 0
      initCleanState st (Nat.zero_le L) heq
    simp only [c4Check, Bool.and_eq_true, decide_eq_true_eq, beq_self_eq_true,
      and_true]
    simpa [initCleanState] using hb

/-- Counterexample to claim C4 as stated: with `limit = 1` and three raw
records, the run examines 2 records, exceeding the claimed bound of 1
(the loop breaks only after processing the record at index 1). -/
theorem C4_counterexample :
    runExamined (cleanLightCurves idRemoveNoise wFit wParams 50 (.fin 1)
      (List.replicate 3 emptyRow)) = some 2 ∧ ¬ (2 ≤ 1) :=
  ⟨by rfl, by decide⟩

/-! ## Claim C6: commit schedule -/

/-- Commit-schedule check at `commitFrequency = 50`: any completed run
with exactly 125 accepted series performed exactly 2 periodic commits
and 1 flush commit. -/
def c6Check : Except PyError RunResult → Bool
  | .error _ => true
  | .ok res =>
    !(res.finalState.insertCount == 125)
      || ((res.finalState.periodicCommits == 2) && (res.flushCommits == 1))

/-- The staged insert arguments of `goodRow` (the cleaned series
re-serializes to the original blobs). -/
def goodIns : InsertArgs := (0, "star", goodBlob, goodBlob, goodBlob)

/-- Effect of one accepted `goodRow` iteration on the loop state
(accept step plus the loop's `examined` bump). -/
def goodStep (st : CleanState) : CleanState :=
  let st1 := acceptStep 50 goodIns st.scaler st
  { st1 with examined := st1.examined + 1 }

/-- Every `goodRow` series passes all checkpoints, from any scaler
state. -/
theorem rowOutcome_goodRow (sc : Option ScalerStats) :
    rowOutcome (cfgOf idRemoveNoise wFit wParams 50) sc goodRow =
      .ok (.accept goodIns sc) := rfl

/-- Every `goodRow` is accepted, from any loop state. -/
theorem processRow_goodRow (st : CleanState) :
    processRow (cfgOf idRemoveNoise wFit wParams 50) st goodRow =
      .ok (acceptStep 50 goodIns st.scaler st) := by
  unfold processRow
  rw [rowOutcome_goodRow]
  rfl

/-- Without a limit, a block of `n` copies of `goodRow` drives the loop
through `n` accept steps. -/
theorem cleanLoop_replicate_good (n : ℕ) :
    ∀ (i : ℕ) (st : CleanState),
      cleanLoop (cfgOf idRemoveNoise wFit wParams 50) .inf i st
        (List.replicate n goodRow) = .ok (goodStep^[n] st) := by
  induction n with
  | zero => intro i st; rfl
  | succ n ih =>
    intro i st
    simp only [List.replicate_succ, cleanLoop, processRow_goodRow, limitHit,
      Bool.false_eq_true, if_false]
    rw [ih (i + 1), Function.iterate_succ_apply]
    rfl

/-- Iterated accept steps add to `insertCount`. -/
theorem goodStep_iterate_insertCount (n : ℕ) :
    ∀ st : CleanState,
      (goodStep^[n] st).insertCount = st.insertCount + n := by
  induction n with
  | zero => intro st; rfl
  | succ n ih =>
    intro st
    rw [Function.iterate_succ_apply, ih]
    show (acceptStep 50 goodIns st.scaler st).insertCount + n = _
    rw [acceptStep_insertCount]
    omega

/-- Iterated accept steps preserve the commit-counting invariant. -/
theorem goodStep_iterate_commitInv (n : ℕ) :
    ∀ st : CleanState, CommitInv 50 st → CommitInv 50 (goodStep^[n] st) := by
  induction n with
  | zero => intro st h; exact h
  | succ n ih =>
    intro st h
    rw [Function.iterate_succ_apply]
    refine ih _ ?_
    have : applyOutcome 50 st (.accept goodIns st.scaler) =
        .ok (acceptStep 50 goodIns st.scaler st) := rfl
    have h1 : CommitInv 50 (acceptStep 50 goodIns st.scaler st) :=
      applyOutcome_commitInv 50 st _ _ this h
    exact h1

/-- Claim C6: with `commitFrequency = 50`, every completed run that
accepts exactly 125 series performed exactly 2 periodic commits (at the
50th and 100th accepted insert, i.e. whenever `insertCount` is a
multiple of 50) plus the single final flush commit; instantiated on a
concrete 125-record run. -/
theorem C6_commit_schedule :
    (∀ (rn : RemoveNoiseFn) (fit : FitFn) (params : CleanParams)
        (limit : PageLimit) (rows : List Row),
      c6Check (cleanLightCurves rn fit params 50 limit rows) = true)
    ∧ runStats (cleanLightCurves idRemoveNoise wFit wParams 50 .inf
        (List.replicate 125 goodRow)) = some (125, 2, 1) := by
  constructor
  · intro rn fit params limit rows
    simp only [cleanLightCurves]
    split
    · rfl
    · rename_i st heq
      have hinv : CommitInv 50 st := by
        have := cleanLoop_commitInv (cfgOf rn fit params 50) limit rows 0
          initCleanState st heq
        exact this (by simp [CommitInv, initCleanState])
      simp only [c6Check]
      by_cases hc : st.insertCount = 125
      · unfold CommitInv at hinv
        rw [hc] at hinv
        norm_num at hinv
        simp [hc, hinv]
      · simp [hc]
  · have hrun := cleanLoop_replicate_good 125 0 initCleanState
    have hins : (goodStep^[125] initCleanState).insertCount = 125 := by
      rw [goodStep_iterate_insertCount]
      rfl
    have hper : (goodStep^[125] initCleanState).periodicCommits = 2 := by
      have hinv := goodStep_iterate_commitInv 125 initCleanState
        (by simp [CommitInv, initCleanState])
      unfold CommitInv at hinv
      rw [hinv, hins]
    simp only [cleanLightCurves]
    rw [hrun]
    simp only [runStats, hins, hper]

/-! ## Claim C3: the summary denominator -/

/-- Claim C3 (code bug): with a finite limit, the denominator of every
reported rate is `max(rawCount, limit)` — the code's
`totalLcs = max(totalLcs, limit)` — not the number of records actually
examined.  On 5 raw rows with `limit = 2` the run examines 3 records and
accepts all 3, yet reports dataset size 5 and pass rate 3/5 where the
claim requires 3/3. -/
theorem C3_denominator_mismatch :
    runSummary (cleanLightCurves idRemoveNoise wFit wParams 50 (.fin 2)
        (List.replicate 5 goodRow)) =
      some ⟨5, fmtPct 3 5, fmtPct 0 5, fmtPct 0 5, fmtPct 0 5⟩
    ∧ runExamined (cleanLightCurves idRemoveNoise wFit wParams 50 (.fin 2)
        (List.replicate 5 goodRow)) = some 3
    ∧ runStats (cleanLightCurves idRemoveNoise wFit wParams 50 (.fin 2)
        (List.replicate 5 goodRow)) = some (3, 0, 1)
    ∧ totalLcsOf (List.replicate 5 goodRow).length (.fin 2) = 5
    ∧ fmtPct 3 5 ≠ fmtPct 3 3 :=
  ⟨by rfl, by rfl, by rfl, by rfl, by norm_num [fmtPct]⟩

/-! ## Claim C5: what the summary reports -/

/-- Follows the spec's words (DiscardCounters.bogusRemoved): the
aggregate count of individual points removed by the bogus filter across
all series of a run, recomputed from the per-series `removedCounts`
returned by `preprocessLc` (an aborting series contributes nothing).
Defined only for comparison with the summary the code emits. -/
def specTotalBogusRemoved (rn : RemoveNoiseFn) (removes : List PyFloat)
    (stdLimit errorLimit : ℚ) (rows : List Row) : ℕ :=
  (rows.map (fun r =>
    let tme := deserLc r.timesBlob r.magsBlob r.errorsBlob
    match preprocessLc rn tme.1 tme.2.1 tme.2.2 removes stdLimit
        errorLimit with
    | .ok (_, _, cnts) => cnts.bogusRemoved
    | .error _ => 0)).sum

/-- Check that a completed run's summary consists exactly of the
series-level counters over the dataset-size denominator (and hence
carries no point-removal totals). -/
def summaryReportsSeriesRates : Except PyError RunResult → Bool
  | .error _ => true
  | .ok res =>
    decide (res.summary.passRate =
        fmtPct res.finalState.insertCount res.summary.datasetSize)
    && decide (res.summary.shortRate =
        fmtPct res.finalState.shortIssueCount res.summary.datasetSize)
    && decide (res.summary.bogusRate =
        fmtPct res.finalState.bogusIssueCount res.summary.datasetSize)
    && decide (res.summary.outlierRate =
        fmtPct res.finalState.outlierIssueCount res.summary.datasetSize)

/-- Claim C5 (amended): the final summary reports only the accepted
count and the per-reason series counts, each as a rate over the dataset
size; the per-series removed-point counts returned by `preprocessLc` are
discarded by `cleanLightCurves` and never aggregated. -/
theorem C5_summary_series_counts_only (rn : RemoveNoiseFn) (fit : FitFn)
    (params : CleanParams) (cf : ℕ) (limit : PageLimit) (rows : List Row) :
    summaryReportsSeriesRates
      (cleanLightCurves rn fit params cf limit rows) = true := by
  simp only [cleanLightCurves]
  split
  · rfl
  · simp [summaryReportsSeriesRates]

/-- Counterexample to claim C5 as stated: two concrete runs whose
bogus-filter point-removal aggregates differ (5 versus 0) produce
identical summaries, so the emitted summary cannot be reporting the
number of points removed. -/
theorem C5_counterexample :
    runSummary (cleanLightCurves idRemoveNoise wFit bogusParams 50 .inf
        [bogusRow]) =
      runSummary (cleanLightCurves idRemoveNoise wFit wParams 50 .inf
        [goodRow])
    ∧ specTotalBogusRemoved idRemoveNoise (effectiveRemoves bogusParams)
        5 3 [bogusRow] = 5
    ∧ specTotalBogusRemoved idRemoveNoise (effectiveRemoves wParams)
        5 3 [goodRow] = 0 :=
  ⟨by rfl, by rfl, by rfl⟩
